import Mathlib

/-!
Shallow embedding of the `mat3ra.made` tools package (interface data holder,
defect dispatch, slab generator, basis filtering and merging), with theorems
checking the natural-language specification against the code.

Python floats are modelled as exact rationals (`ℚ`), Python lists as `List`,
Python dicts as insertion-ordered association lists, and raising code as
`Except PyErr`.  Read-only methods (getters) are embedded as pure functions
of the object state; mutating methods are embedded as state transformers
`InterfaceDataHolder → InterfaceDataHolder`.
-/

/-- Python lookup failures: `IndexError` (list subscript out of range),
`KeyError` (dict subscript with absent key), `TypeError`
(e.g. `functools.reduce` over an empty sequence with no initializer). -/
inductive PyErr
  | indexError
  | keyError
  | typeError
deriving DecidableEq, Repr

/-- Python list subscript `xs[i]` for `i : ℤ`: negative indices count from the
end; any index outside `-len ≤ i < len` is an `IndexError`, modelled as
`none`. -/
def pyListGet (xs : List α) (i : ℤ) : Option α :=
  let j : ℤ := if i < 0 then i + xs.length else i
  if 0 ≤ j then xs.get? j.toNat else none

/-- An interface termination: a pair of termination labels, one for each of
the two joined slabs (`TerminationType = Tuple[str, str]`). -/
abbrev TerminationType := String × String

/-- An interface candidate as the data holder sees it: its termination label
(`interface_properties["termination"]`), its site count (`num_sites`) and the
value stored at `interface_properties[StrainModes.mean_abs_strain]` (the
rounded mean absolute strain set by `interface_patch_with_mean_abs_strain`).
All methods below are used by the claims only at the default
`strain_mode = StrainModes.mean_abs_strain`, so only that property is
carried. -/
structure Iface where
  termination : TerminationType
  num_sites : ℕ
  mean_abs_strain : ℚ
deriving DecidableEq, Repr

/-- The comparison performed by `np.allclose(a, b)` on scalar strain values,
with numpy defaults `rtol = 1e-05`, `atol = 1e-08`:
`|a - b| ≤ atol + rtol * |b|`. -/
def np_allclose (a b : ℚ) : Prop :=
  |a - b| ≤ 1 / 100000000 + (1 / 100000) * |b|

/-- The tolerance comparison is decided by the equivalent cross-multiplied
integer inequality (the rational arithmetic operations are irreducible to
the kernel, the integer ones are not). -/
instance np_allclose.instDec (a b : ℚ) : Decidable (np_allclose a b) :=
  decidable_of_iff
    ((a.num * (b.den : ℤ) - b.num * (a.den : ℤ)).natAbs * 10000000000000 ≤
      (100000 * b.den + 100000000 * b.num.natAbs) * a.den)
    (by
      unfold np_allclose
      rw [← Nat.cast_le (α := ℚ)]
      push_cast [Int.cast_natAbs]
      have hC : (0:ℚ) < (a.den : ℚ) := by exact_mod_cast a.den_pos
      have hD : (0:ℚ) < (b.den : ℚ) := by exact_mod_cast b.den_pos
      have hA : (a.num : ℚ) = a * (a.den : ℚ) :=
        (div_eq_iff (ne_of_gt hC)).mp (Rat.num_div_den a)
      have hB : (b.num : ℚ) = b * (b.den : ℚ) :=
        (div_eq_iff (ne_of_gt hD)).mp (Rat.num_div_den b)
      rw [hA, hB]
      have h1 : |a * (a.den : ℚ) * (b.den : ℚ) - b * (b.den : ℚ) * (a.den : ℚ)| =
          |a - b| * ((a.den : ℚ) * (b.den : ℚ)) := by
        rw [show a * (a.den : ℚ) * (b.den : ℚ) - b * (b.den : ℚ) * (a.den : ℚ) =
          (a - b) * ((a.den : ℚ) * (b.den : ℚ)) by ring]
        rw [abs_mul, abs_of_pos (mul_pos hC hD)]
      have h2 : |b * (b.den : ℚ)| = |b| * (b.den : ℚ) := by
        rw [abs_mul, abs_of_pos hD]
      rw [h1, h2]
      rw [show (100000 * (b.den : ℚ) + 100000000 * (|b| * (b.den : ℚ))) * (a.den : ℚ) =
        ((100000 + 100000000 * |b|) * ((a.den : ℚ) * (b.den : ℚ))) by ring]
      rw [show |a - b| * ((a.den : ℚ) * (b.den : ℚ)) * 10000000000000 =
        (|a - b| * 10000000000000) * ((a.den : ℚ) * (b.den : ℚ)) by ring]
      rw [mul_le_mul_right (mul_pos hC hD)]
      rw [show (100000 : ℚ) + 100000000 * |b| =
        (1 / 100000000 + (1 / 100000) * |b|) * 10000000000000 by ring]
      rw [mul_le_mul_right (show (0:ℚ) < 10000000000000 by norm_num)])

/-- The sort key of `get_interfaces_for_termination_sorted_by_strain`:
`np.mean(np.abs(x.interface_properties[strain_mode]))`, which on the scalar
`mean_abs_strain` property is the absolute value. -/
def strainKey (x : Iface) : ℚ :=
  |x.mean_abs_strain|

/-- The inner predicate `are_interfaces_duplicate` of
`remove_duplicate_interfaces_for_termination`: equal `num_sites` and
`np.allclose` strain properties (first argument is the candidate being
examined, second the already kept one). -/
def are_interfaces_duplicate (interface1 interface2 : Iface) : Bool :=
  interface1.num_sites == interface2.num_sites &&
    decide (np_allclose interface1.mean_abs_strain interface2.mean_abs_strain)

/-- Comparison relation of Python `sorted(..., key=lambda x: np.mean(np.abs(...)))`. -/
def strainLe (a b : Iface) : Prop :=
  strainKey a ≤ strainKey b

instance : DecidableRel strainLe := fun a b => by
  unfold strainLe; infer_instance

instance : IsTotal Iface strainLe := ⟨fun a b => le_total (strainKey a) (strainKey b)⟩

instance : IsTrans Iface strainLe := ⟨fun _ _ _ => le_trans⟩

/-- Comparison relation of Python `sorted(..., key=lambda x: x.num_sites)`. -/
def sizeLe (a b : Iface) : Prop :=
  a.num_sites ≤ b.num_sites

instance : DecidableRel sizeLe := fun a b => by
  unfold sizeLe; infer_instance

instance : IsTotal Iface sizeLe := ⟨fun a b => Nat.le_total a.num_sites b.num_sites⟩

instance : IsTrans Iface sizeLe := ⟨fun _ _ _ => Nat.le_trans⟩

/-- Lexicographic order with `num_sites` as the primary key and the mean
absolute strain as the tiebreaker. -/
def sizeStrainLex (a b : Iface) : Prop :=
  a.num_sites < b.num_sites ∨ (a.num_sites = b.num_sites ∧ strainKey a ≤ strainKey b)

instance : DecidableRel sizeStrainLex := fun a b => by
  unfold sizeStrainLex; infer_instance

/-- The interfaces dictionary: a Python dict keyed by termination, modelled
as an insertion-ordered association list. -/
abbrev InterfacesDataType := List (TerminationType × List Iface)

/-- Python dict write `d[t] = v`: update in place if the key is present,
append otherwise. -/
def dictSet (d : InterfacesDataType) (t : TerminationType) (v : List Iface) :
    InterfacesDataType :=
  if d.any (fun p => p.1 == t) then
    d.map (fun p => if p.1 == t then (t, v) else p)
  else
    d ++ [(t, v)]

/-- Python dict read `d[t]`, as an `Option` (`none` is a `KeyError`). -/
def dictGet (d : InterfacesDataType) (t : TerminationType) : Option (List Iface) :=
  (d.find? (fun p => p.1 == t)).map Prod.snd

/-- The `InterfaceDataHolder` state: the interfaces dictionary `self.data`
and the insertion-ordered termination list `self.terminations`. -/
structure InterfaceDataHolder where
  data : InterfacesDataType
  terminations : List TerminationType
deriving DecidableEq, Repr

namespace InterfaceDataHolder

/-- Method `set_interfaces_for_termination`: `self.data[termination] = interfaces`. -/
def set_interfaces_for_termination (h : InterfaceDataHolder) (termination : TerminationType)
    (interfaces : List Iface) : InterfaceDataHolder :=
  { h with data := dictSet h.data termination interfaces }

/-- Method `add_termination`: if the termination is new, append it to
`self.terminations` and initialise its dictionary entry with `[]`. -/
def add_termination (h : InterfaceDataHolder) (termination : TerminationType) :
    InterfaceDataHolder :=
  if termination ∈ h.terminations then h
  else
    set_interfaces_for_termination
      { h with terminations := h.terminations ++ [termination] } termination []

/-- The dict read `self.data[termination]` performed by
`get_interfaces_for_termination` when called with a termination key (and the
default `None` selector, under which the external
`filter_by_slice_or_index_or_indices` returns the list unchanged).  Inside
the mutating pipeline every such read is guarded by a preceding
`add_termination` or iterates `self.terminations` in sync with the dict
keys, so the totalising default `[]` is never read there; the raising API
variant is `get_interfaces_for_termination_api` below. -/
def interfacesOf (h : InterfaceDataHolder) (termination : TerminationType) : List Iface :=
  (dictGet h.data termination).getD []

/-- Method `add_interfaces_for_termination`: ensure the termination exists,
then extend its list. -/
def add_interfaces_for_termination (h : InterfaceDataHolder) (termination : TerminationType)
    (interfaces : List Iface) : InterfaceDataHolder :=
  let h1 := add_termination h termination
  set_interfaces_for_termination h1 termination (interfacesOf h1 termination ++ interfaces)

/-- Method `get_interfaces_for_termination_sorted_by_strain` at a termination
key: Python stable `sorted` by mean absolute strain, embedded as insertion
sort (which is stable and so computes the same list). -/
def get_interfaces_for_termination_sorted_by_strain (h : InterfaceDataHolder)
    (termination : TerminationType) : List Iface :=
  (interfacesOf h termination).insertionSort strainLe

/-- Method `get_interfaces_for_termination_sorted_by_size` at a termination
key: Python stable `sorted` by `num_sites`. -/
def get_interfaces_for_termination_sorted_by_size (h : InterfaceDataHolder)
    (termination : TerminationType) : List Iface :=
  (interfacesOf h termination).insertionSort sizeLe

/-- Method `get_interfaces_for_termination_sorted_by_strain_and_size`:
`sorted(self.get_interfaces_for_termination_sorted_by_strain(...), key=lambda x: x.num_sites)`
— a second, stable sort by size applied on top of the strain-sorted list. -/
def get_interfaces_for_termination_sorted_by_strain_and_size (h : InterfaceDataHolder)
    (termination : TerminationType) : List Iface :=
  (get_interfaces_for_termination_sorted_by_strain h termination).insertionSort sizeLe

/-- The loop body of `remove_duplicate_interfaces_for_termination`: append
the candidate unless it is a duplicate of some already kept interface. -/
def dedupeStep (filtered : List Iface) (interface : Iface) : List Iface :=
  if filtered.any (fun unique_interface => are_interfaces_duplicate interface unique_interface)
  then filtered
  else filtered ++ [interface]

/-- The greedy filter of `remove_duplicate_interfaces_for_termination`:
start from the first element of the size-sorted list and keep each later
element only if it is not a duplicate of an already kept one. -/
def dedupeGreedy (sorted_interfaces : List Iface) : List Iface :=
  match sorted_interfaces with
  | [] => []
  | x :: rest => rest.foldl dedupeStep [x]

/-- Method `remove_duplicate_interfaces_for_termination` (at the default
`strain_mode = mean_abs_strain`): sort the group by size, filter greedily,
store the result back. -/
def remove_duplicate_interfaces_for_termination (h : InterfaceDataHolder)
    (termination : TerminationType) : InterfaceDataHolder :=
  set_interfaces_for_termination h termination
    (dedupeGreedy (get_interfaces_for_termination_sorted_by_size h termination))

/-- Method `remove_duplicate_interfaces` (default strain mode): loop over
`self.terminations`. -/
def remove_duplicate_interfaces (h : InterfaceDataHolder) : InterfaceDataHolder :=
  h.terminations.foldl remove_duplicate_interfaces_for_termination h

/-- Method `sort_interfaces_for_all_terminations_by_strain_and_size`: loop
over `self.terminations`, storing each sorted group back. -/
def sort_interfaces_for_all_terminations_by_strain_and_size (h : InterfaceDataHolder) :
    InterfaceDataHolder :=
  h.terminations.foldl
    (fun acc termination =>
      set_interfaces_for_termination acc termination
        (get_interfaces_for_termination_sorted_by_strain_and_size acc termination))
    h

/-- Method `add_data_entries(entries, sort_interfaces_by_strain_and_size, remove_duplicates)`:
partition the entries by termination (CPython iterates `list(set(...))` in an
unspecified order; the claims proved below are independent of that order and
we fix the duplicate-free enumeration `List.dedup`), append each partition,
then optionally sort and deduplicate all groups. -/
def add_data_entries (h : InterfaceDataHolder) (entries : List Iface)
    (sort_interfaces_by_strain_and_size : Bool := true)
    (remove_duplicates : Bool := true) : InterfaceDataHolder :=
  let unique_terminations := (entries.map (fun e => e.termination)).dedup
  let h1 := unique_terminations.foldl
    (fun acc termination =>
      add_interfaces_for_termination acc termination
        (entries.filter (fun entry => entry.termination == termination)))
    h
  let h2 := if sort_interfaces_by_strain_and_size then
    sort_interfaces_for_all_terminations_by_strain_and_size h1 else h1
  if remove_duplicates then remove_duplicate_interfaces h2 else h2

/-- Constructor `InterfaceDataHolder(entries)`: start from empty state and
`add_data_entries(entries)` with the default flags. -/
def init (entries : List Iface) : InterfaceDataHolder :=
  add_data_entries ⟨[], []⟩ entries

/-- Method `get_termination`: an integer is replaced by
`self.terminations[index]` (an `IndexError` when out of range); a
termination pair is returned unchanged. -/
def get_termination (h : InterfaceDataHolder) (termination : ℤ ⊕ TerminationType) :
    Except PyErr TerminationType :=
  match termination with
  | Sum.inl index =>
    match pyListGet h.terminations index with
    | some t => Except.ok t
    | none => Except.error PyErr.indexError
  | Sum.inr t => Except.ok t

/-- Method `get_interfaces_for_termination_or_its_index`: resolve the
termination, then the dict subscript `self.data[termination]` (a `KeyError`
when the key is absent).  The method reads but never writes `self`, which
the embedding reflects by returning no new state. -/
def get_interfaces_for_termination_or_its_index (h : InterfaceDataHolder)
    (termination_or_its_index : ℤ ⊕ TerminationType) : Except PyErr (List Iface) := do
  let termination ← get_termination h termination_or_its_index
  match dictGet h.data termination with
  | some interfaces => Except.ok interfaces
  | none => Except.error PyErr.keyError

/-- Method `get_interfaces_for_termination` with the default
`slice_or_index_or_indices = None`, under which the external
`array_utils.filter_by_slice_or_index_or_indices` returns the list
unchanged. -/
def get_interfaces_for_termination_api (h : InterfaceDataHolder)
    (termination_or_its_index : ℤ ⊕ TerminationType) : Except PyErr (List Iface) :=
  get_interfaces_for_termination_or_its_index h termination_or_its_index

/-- Method `get_all_interfaces`:
`functools.reduce(lambda a, b: a + b, self.data.values())` — a `TypeError`
on an empty dict (reduce of an empty sequence with no initial value),
otherwise the left fold of list concatenation over the groups in dict
insertion order. -/
def get_all_interfaces (h : InterfaceDataHolder) : Except PyErr (List Iface) :=
  match h.data.map Prod.snd with
  | [] => Except.error PyErr.typeError
  | v :: vs => Except.ok (vs.foldl (fun a b => a ++ b) v)

end InterfaceDataHolder

/-- Modelled from the spec: `PointDefectTypeEnum` (file
`tools/build/defect/enums.py`, not under `src/`) — "a fixed mapping from
defect-type enum to builder object"; the three members with builders are
those keyed in `DEFECT_BUILDER_FACTORY`, and the spec's error-handling
section contemplates a lookup miss for an "unknown ... defect type", which
the `OTHER` member stands for. -/
inductive PointDefectTypeEnum
  | VACANCY
  | SUBSTITUTION
  | INTERSTITIAL
  | OTHER
deriving DecidableEq, Repr

/-- Modelled from the spec: a point-defect builder object (file
`tools/build/defect/builders.py`, not under `src/`) exposes "a uniform
`get_material(configuration)` method".  As a Python class instance it is
truthy.  `M` is the material type, `C` the configuration type. -/
structure PointDefectBuilder (M C : Type) where
  get_material : C → M

/-- A `PointDefectConfiguration` as `create_defect` consumes it: the defect
type used for dispatch and the `crystal` material returned by the (dead)
fallback branch.  (`tools/build/defect/configuration.py` is not under
`src/`; these two attributes are the ones `create_defect` reads.) -/
structure PointDefectConfiguration (M : Type) where
  defect_type : PointDefectTypeEnum
  crystal : M

/-- Function `DEFECT_BUILDER_FACTORY(builder_parameters)`: the dict mapping
the three builder-backed enum members to freshly constructed builder
objects.  The builder constructors are abstracted as the parameters
`vac`, `sub`, `inter` (their code is not under `src/`). -/
def DEFECT_BUILDER_FACTORY {M P : Type}
    (vac sub inter : Option P → PointDefectBuilder M (PointDefectConfiguration M))
    (builder_parameters : Option P) :
    List (PointDefectTypeEnum × PointDefectBuilder M (PointDefectConfiguration M)) :=
  [(PointDefectTypeEnum.VACANCY, vac builder_parameters),
   (PointDefectTypeEnum.SUBSTITUTION, sub builder_parameters),
   (PointDefectTypeEnum.INTERSTITIAL, inter builder_parameters)]

/-- Function `create_defect`: the dict subscript
`DEFECT_BUILDER_FACTORY(builder_parameters)[configuration.defect_type]`
raises `KeyError` when the defect type is not a key; on a hit the builder
object is truthy, so `builder.get_material(configuration) if builder else
configuration.crystal` takes the first branch (the `else
configuration.crystal` fallback is unreachable). -/
def create_defect {M P : Type}
    (vac sub inter : Option P → PointDefectBuilder M (PointDefectConfiguration M))
    (configuration : PointDefectConfiguration M)
    (builder_parameters : Option P := none) : Except PyErr M :=
  match (DEFECT_BUILDER_FACTORY vac sub inter builder_parameters).find?
      (fun p => p.1 == configuration.defect_type) with
  | some p => Except.ok (p.2.get_material configuration)
  | none => Except.error PyErr.keyError

/-- The `SlabGenerator` state needed by `get_slab_with_termination`: the
pymatgen-produced structures `self._slab_structures` (of abstract type `S`)
and `self.xy_supercell_matrix`. -/
structure SlabGenerator (S : Type) where
  slab_structures : List S
  xy_supercell_matrix : List (List ℤ)

/-- Method `SlabGenerator.get_slab_with_termination`: walk
`self._slab_structures` in order and return
`create_supercell(Material(from_pymatgen(slab_structure)), self.xy_supercell_matrix)`
for the first structure whose `label_termination` equals the argument;
return `None` when no structure matches.  The external pymatgen
`label_termination` and the repository's `from_pymatgen` / `Material` /
`create_supercell` (files `convert.py`, `supercell.py`, not under `src/`)
are abstracted as the function parameters. -/
def get_slab_with_termination {S Cfg M : Type}
    (label_termination : S → String)
    (from_pymatgen : S → Cfg) (material_of : Cfg → M)
    (create_supercell : M → List (List ℤ) → M)
    (g : SlabGenerator S) (termination : String) : Option M :=
  (g.slab_structures.find? (fun s => label_termination s == termination)).map
    (fun s => create_supercell (material_of (from_pymatgen s)) g.xy_supercell_matrix)

/-- One slot of a basis array: a dict with an `id` and a `value`, as in
`{"id": 3, "value": "S"}`. -/
structure BasisEntry (α : Type) where
  id : ℤ
  value : α
deriving DecidableEq, Repr

/-- A label value, `Union[int, str]` in `filter_by_label`. -/
inductive PyScalar
  | intV (n : ℤ)
  | strV (s : String)
deriving DecidableEq, Repr

/-- The basis of a `Material`: parallel arrays of elements, coordinates and
labels (`material.basis["elements" | "coordinates" | "labels"]`). -/
structure MaterialBasis where
  elements : List (BasisEntry String)
  coordinates : List (BasisEntry (List ℚ))
  labels : List (BasisEntry PyScalar)
deriving DecidableEq, Repr

/-- A `Material` as the basis-level functions see it: its basis dict. -/
structure Material where
  basis : MaterialBasis
deriving DecidableEq, Repr

/-- Function `filter_by_label`: compute the positions whose label value
equals the argument, then replace the coordinate and element arrays by the
entries at those positions.  The labels array itself is not reassigned.
The Python function mutates `material` in place and returns the same
object; the embedding returns the post-mutation state. -/
def filter_by_label (material : Material) (label : PyScalar) : Material :=
  let labels := material.basis.labels
  let indices := (labels.enum.filter (fun p => p.2.value == label)).map Prod.fst
  { material with basis :=
    { material.basis with
      coordinates := ((material.basis.coordinates.enum.filter
        (fun p => p.1 ∈ indices)).map Prod.snd)
      elements := ((material.basis.elements.enum.filter
        (fun p => p.1 ∈ indices)).map Prod.snd) } }

/-- Modelled from the spec: the per-array step of `merge_materials` (file
`tools/build/utils.py`, not under `src/`) — "concatenation of parallel
element/coordinate/label arrays, with a 'reverse' merge order
distinguishing which material's atoms are kept on index collision".  The
expected fixtures of `test_merge_materials` fix the semantics exactly: the
first material's entries in order, an entry whose id also occurs in the
second material being replaced in place by the second material's entry,
followed by the second material's entries with fresh ids. -/
def mergeEntries {α : Type} (a b : List (BasisEntry α)) : List (BasisEntry α) :=
  (a.map (fun e =>
    match b.find? (fun e2 => e2.id == e.id) with
    | some e2 => e2
    | none => e))
  ++ b.filter (fun e2 => a.all (fun e => ! (e.id == e2.id)))

/-- Modelled from the spec: merging two materials applies `mergeEntries` to
each of the parallel basis arrays. -/
def merge_two_materials (m1 m2 : Material) : Material :=
  ⟨⟨mergeEntries m1.basis.elements m2.basis.elements,
    mergeEntries m1.basis.coordinates m2.basis.coordinates,
    mergeEntries m1.basis.labels m2.basis.labels⟩⟩

/-- Modelled from the spec: `merge_materials(materials)` reduces the list
with the two-material merge (folding from the empty basis, which is a
neutral element). -/
def merge_materials (materials : List Material) : Material :=
  materials.foldl merge_two_materials ⟨⟨[], [], []⟩⟩

/-- Key soundness invariant of the holder state: every key of the interfaces
dictionary also occurs in the termination list.  It holds for the empty
holder and is preserved by every mutating method. -/
def InterfaceDataHolder.KeysSub (h : InterfaceDataHolder) : Prop :=
  ∀ t, t ∈ h.data.map Prod.fst → t ∈ h.terminations

/-- Lookup of a basis entry by its `id` (first match). -/
def findById {α : Type} (l : List (BasisEntry α)) (i : ℤ) : Option (BasisEntry α) :=
  l.find? (fun e => e.id == i)

/-- The order named by the spec sentence "sorted by (strain, size)":
lexicographic with mean absolute strain as the primary key and site count as
the tiebreaker. -/
def strainSizeLex (a b : Iface) : Prop :=
  strainKey a < strainKey b ∨ (strainKey a = strainKey b ∧ a.num_sites ≤ b.num_sites)

instance : DecidableRel strainSizeLex := fun a b => by
  unfold strainSizeLex; infer_instance

/-- Concrete termination pair used by the concrete examples below. -/
def tCex : TerminationType := ("C_P6", "Si_R3m")

/-- Concrete interface candidate: 5 sites, mean absolute strain 2/10. -/
def ifaceA : Iface := ⟨tCex, 5, Rat.divInt 2 10⟩

/-- Concrete interface candidate: 10 sites, mean absolute strain 1/10. -/
def ifaceB : Iface := ⟨tCex, 10, Rat.divInt 1 10⟩

/-- Holder holding the two concrete candidates for one termination. -/
def holderAB : InterfaceDataHolder := ⟨[(tCex, [ifaceA, ifaceB])], [tCex]⟩

/-- Concrete candidate with strain 0, for the duplicate-chain example. -/
def dup1 : Iface := ⟨tCex, 4, 0⟩

/-- Concrete candidate with strain 1e-8: `np.allclose` to `dup1`. -/
def dup2 : Iface := ⟨tCex, 4, Rat.divInt 1 100000000⟩

/-- Concrete candidate with strain 2e-8: `np.allclose` to `dup2` but not to
`dup1`. -/
def dup3 : Iface := ⟨tCex, 4, Rat.divInt 2 100000000⟩

/-- Holder holding the duplicate chain `dup1, dup2, dup3` (equal sizes). -/
def holderDup : InterfaceDataHolder := ⟨[(tCex, [dup1, dup2, dup3])], [tCex]⟩

/-- Concrete material `A` of the merge examples: atoms with ids 0 and 1. -/
def matA : Material :=
  ⟨⟨[⟨0, "Ni"⟩, ⟨1, "O"⟩], [⟨0, [0]⟩, ⟨1, [1]⟩], []⟩⟩

/-- Concrete material `B` of the merge examples: atoms with ids 0 (colliding
with `A`) and 2. -/
def matB : Material :=
  ⟨⟨[⟨0, "S"⟩, ⟨2, "H"⟩], [⟨0, [2]⟩, ⟨2, [3]⟩], []⟩⟩

/-- Concrete material for the label-filter example: two atoms, labelled 1
and 2. -/
def matLbl : Material :=
  ⟨⟨[⟨0, "Si"⟩, ⟨1, "O"⟩], [⟨0, [0]⟩, ⟨1, [Rat.divInt 1 2]⟩],
    [⟨0, PyScalar.intV 1⟩, ⟨1, PyScalar.intV 2⟩]⟩⟩

/-- Concrete slab generator state over `String` slab structures. -/
def slabGenCex : SlabGenerator String := ⟨["termX", "termY"], [[1, 0], [0, 1]]⟩

/-! ### Dictionary lemmas -/

theorem find_update_self (d : InterfacesDataType) (t : TerminationType) (v : List Iface)
    (hd : d.any (fun p => p.1 == t) = true) :
    (d.map (fun p => if p.1 == t then (t, v) else p)).find? (fun p => p.1 == t) = some (t, v) := by
  induction d with
  | nil => simp at hd
  | cons p d ih =>
    simp only [List.any_cons, Bool.or_eq_true] at hd
    rw [List.map_cons]
    by_cases hp : (p.1 == t) = true
    · have htv : ((t, v).1 == t) = true := by simp
      simp only [hp, if_true, List.find?_cons, htv]
    · have hd2 := hd.resolve_left hp
      have hp2 : (p.1 == t) = false := by
        cases hb : (p.1 == t) with
        | true => exact absurd hb hp
        | false => rfl
      simp only [hp2, Bool.false_eq_true, if_false, List.find?_cons, ih hd2]

theorem find_update_other (d : InterfacesDataType) (t : TerminationType) (v : List Iface)
    (u : TerminationType) (hu : u ≠ t) :
    (d.map (fun p => if p.1 == t then (t, v) else p)).find? (fun p => p.1 == u) =
      d.find? (fun p => p.1 == u) := by
  induction d with
  | nil => rfl
  | cons p d ih =>
    rw [List.map_cons]
    by_cases hp : (p.1 == t) = true
    · have hpt : p.1 = t := beq_iff_eq.mp hp
      have h1 : ((t, v).1 == u) = false := beq_eq_false_iff_ne.mpr (fun h => hu h.symm)
      have h2 : (p.1 == u) = false := by
        rw [hpt]
        exact beq_eq_false_iff_ne.mpr (fun h => hu h.symm)
      simp only [hp, if_true, List.find?_cons, h1, h2, ih]
    · have hp2 : (p.1 == t) = false := by
        cases hb : (p.1 == t) with
        | true => exact absurd hb hp
        | false => rfl
      cases hq : (p.1 == u) with
      | true => simp only [hp2, Bool.false_eq_true, if_false, List.find?_cons, hq]
      | false => simp only [hp2, Bool.false_eq_true, if_false, List.find?_cons, hq, ih]

theorem dictGet_dictSet_self (d : InterfacesDataType) (t : TerminationType) (v : List Iface) :
    dictGet (dictSet d t v) t = some v := by
  unfold dictGet dictSet
  by_cases hd : d.any (fun p => p.1 == t) = true
  · rw [if_pos hd, find_update_self d t v hd]
    rfl
  · rw [if_neg hd, List.find?_append]
    have h1 : d.find? (fun p => p.1 == t) = none := by
      rw [List.find?_eq_none]
      intro x hx hpx
      exact hd (List.any_eq_true.mpr ⟨x, hx, hpx⟩)
    have h2 : ((t, v).1 == t) = true := by simp
    simp only [h1, Option.none_or, List.find?_cons, h2, Option.map_some']

theorem dictGet_dictSet_other (d : InterfacesDataType) (t : TerminationType) (v : List Iface)
    (u : TerminationType) (hu : u ≠ t) :
    dictGet (dictSet d t v) u = dictGet d u := by
  unfold dictGet dictSet
  by_cases hd : d.any (fun p => p.1 == t) = true
  · rw [if_pos hd, find_update_other d t v u hu]
  · rw [if_neg hd, List.find?_append]
    have h1 : ((t, v).1 == u) = false := beq_eq_false_iff_ne.mpr (fun h => hu h.symm)
    cases hfind : d.find? (fun p => p.1 == u) with
    | none =>
      simp only [hfind, Option.none_or, List.find?_cons, h1]
      rfl
    | some p => simp only [hfind, Option.or_some]

theorem mem_keys_of_dictGet_eq_some {d : InterfacesDataType} {t : TerminationType}
    {l : List Iface} (hd : dictGet d t = some l) : t ∈ d.map Prod.fst := by
  unfold dictGet at hd
  cases hfind : d.find? (fun q => q.1 == t) with
  | none => rw [hfind] at hd; cases hd
  | some p =>
    have hp := List.find?_some hfind
    exact List.mem_map.mpr ⟨p, List.mem_of_find?_eq_some hfind, beq_iff_eq.mp hp⟩

/-! ### Holder state lemmas -/

namespace InterfaceDataHolder

theorem terminations_set (h : InterfaceDataHolder) (t : TerminationType) (v : List Iface) :
    (set_interfaces_for_termination h t v).terminations = h.terminations := rfl

theorem interfacesOf_set_self (h : InterfaceDataHolder) (t : TerminationType) (v : List Iface) :
    interfacesOf (set_interfaces_for_termination h t v) t = v := by
  simp [interfacesOf, set_interfaces_for_termination, dictGet_dictSet_self]

theorem interfacesOf_set_other (h : InterfaceDataHolder) {t u : TerminationType}
    (v : List Iface) (hu : u ≠ t) :
    interfacesOf (set_interfaces_for_termination h t v) u = interfacesOf h u := by
  simp [interfacesOf, set_interfaces_for_termination, dictGet_dictSet_other _ _ _ _ hu]

theorem terminations_add_termination (h : InterfaceDataHolder) (t : TerminationType) :
    (add_termination h t).terminations =
      if t ∈ h.terminations then h.terminations else h.terminations ++ [t] := by
  unfold add_termination
  by_cases ht : t ∈ h.terminations
  · rw [if_pos ht, if_pos ht]
  · rw [if_neg ht, if_neg ht]
    rfl

theorem mem_terminations_add_termination (h : InterfaceDataHolder) (t : TerminationType) :
    t ∈ (add_termination h t).terminations := by
  rw [terminations_add_termination]
  by_cases ht : t ∈ h.terminations
  · rw [if_pos ht]; exact ht
  · rw [if_neg ht]; simp

theorem nodup_terminations_add_termination (h : InterfaceDataHolder) (t : TerminationType)
    (hnd : h.terminations.Nodup) : (add_termination h t).terminations.Nodup := by
  rw [terminations_add_termination]
  by_cases ht : t ∈ h.terminations
  · rw [if_pos ht]; exact hnd
  · rw [if_neg ht]
    simp [List.nodup_append, hnd, ht]

theorem interfacesOf_add_termination_of_not_mem (h : InterfaceDataHolder)
    {t : TerminationType} (ht : t ∉ h.terminations) :
    interfacesOf (add_termination h t) t = [] := by
  unfold add_termination
  rw [if_neg ht]
  exact interfacesOf_set_self _ _ _

theorem interfacesOf_add_termination_other (h : InterfaceDataHolder)
    {t u : TerminationType} (hu : u ≠ t) :
    interfacesOf (add_termination h t) u = interfacesOf h u := by
  unfold add_termination
  by_cases ht : t ∈ h.terminations
  · rw [if_pos ht]
  · rw [if_neg ht]
    exact interfacesOf_set_other _ _ hu

theorem terminations_add_interfaces_of_not_mem (h : InterfaceDataHolder)
    {t : TerminationType} (v : List Iface) (ht : t ∉ h.terminations) :
    (add_interfaces_for_termination h t v).terminations = h.terminations ++ [t] := by
  unfold add_interfaces_for_termination
  rw [terminations_set, terminations_add_termination, if_neg ht]

theorem interfacesOf_add_interfaces_self_of_not_mem (h : InterfaceDataHolder)
    {t : TerminationType} (v : List Iface) (ht : t ∉ h.terminations) :
    interfacesOf (add_interfaces_for_termination h t v) t = v := by
  unfold add_interfaces_for_termination
  rw [interfacesOf_set_self, interfacesOf_add_termination_of_not_mem h ht]
  rfl

theorem interfacesOf_add_interfaces_other (h : InterfaceDataHolder)
    {t u : TerminationType} (v : List Iface) (hu : u ≠ t) :
    interfacesOf (add_interfaces_for_termination h t v) u = interfacesOf h u := by
  unfold add_interfaces_for_termination
  rw [interfacesOf_set_other _ _ hu, interfacesOf_add_termination_other _ hu]

/-! ### Update-fold lemmas: the sorting and deduplication loops -/

theorem terminations_updateFold (F : List Iface → List Iface) :
    ∀ (ts : List TerminationType) (h : InterfaceDataHolder),
      ((ts.foldl (fun acc u =>
          set_interfaces_for_termination acc u (F (interfacesOf acc u))) h)).terminations =
        h.terminations
  | [], _ => rfl
  | u :: ts, h => by
    rw [List.foldl_cons, terminations_updateFold F ts, terminations_set]

theorem interfacesOf_updateFold (F : List Iface → List Iface) :
    ∀ (ts : List TerminationType) (h : InterfaceDataHolder) (t : TerminationType),
      ts.Nodup →
      interfacesOf
          ((ts.foldl (fun acc u =>
            set_interfaces_for_termination acc u (F (interfacesOf acc u))) h)) t =
        if t ∈ ts then F (interfacesOf h t) else interfacesOf h t
  | [], h, t, _ => by simp
  | u :: ts, h, t, hnd => by
    rw [List.foldl_cons]
    have hnd2 := (List.nodup_cons.mp hnd).2
    have hu : u ∉ ts := (List.nodup_cons.mp hnd).1
    by_cases htu : t = u
    · subst htu
      rw [interfacesOf_updateFold F ts _ t hnd2, if_neg hu, interfacesOf_set_self,
        if_pos (List.mem_cons_self t ts)]
    · rw [interfacesOf_updateFold F ts _ t hnd2, interfacesOf_set_other _ _ htu]
      by_cases hts : t ∈ ts
      · rw [if_pos hts, if_pos (List.mem_cons_of_mem u hts)]
      · rw [if_neg hts, if_neg (by simp [htu, hts])]

theorem remove_duplicate_interfaces_eq_updateFold (h : InterfaceDataHolder) :
    remove_duplicate_interfaces h =
      h.terminations.foldl (fun acc u =>
        set_interfaces_for_termination acc u
          (dedupeGreedy ((interfacesOf acc u).insertionSort sizeLe))) h := rfl

theorem sort_all_eq_updateFold (h : InterfaceDataHolder) :
    sort_interfaces_for_all_terminations_by_strain_and_size h =
      h.terminations.foldl (fun acc u =>
        set_interfaces_for_termination acc u
          (((interfacesOf acc u).insertionSort strainLe).insertionSort sizeLe)) h := rfl

theorem interfacesOf_remove_duplicate_interfaces (h : InterfaceDataHolder)
    (t : TerminationType) (hnd : h.terminations.Nodup) :
    interfacesOf (remove_duplicate_interfaces h) t =
      if t ∈ h.terminations then dedupeGreedy ((interfacesOf h t).insertionSort sizeLe)
      else interfacesOf h t := by
  rw [remove_duplicate_interfaces_eq_updateFold]
  exact interfacesOf_updateFold (fun l => dedupeGreedy (l.insertionSort sizeLe))
    h.terminations h t hnd

theorem terminations_remove_duplicate_interfaces (h : InterfaceDataHolder) :
    (remove_duplicate_interfaces h).terminations = h.terminations := by
  rw [remove_duplicate_interfaces_eq_updateFold]
  exact terminations_updateFold (fun l => dedupeGreedy (l.insertionSort sizeLe))
    h.terminations h

theorem interfacesOf_sort_all (h : InterfaceDataHolder) (t : TerminationType)
    (hnd : h.terminations.Nodup) :
    interfacesOf (sort_interfaces_for_all_terminations_by_strain_and_size h) t =
      if t ∈ h.terminations
      then ((interfacesOf h t).insertionSort strainLe).insertionSort sizeLe
      else interfacesOf h t := by
  rw [sort_all_eq_updateFold]
  exact interfacesOf_updateFold (fun l => (l.insertionSort strainLe).insertionSort sizeLe)
    h.terminations h t hnd

theorem terminations_sort_all (h : InterfaceDataHolder) :
    (sort_interfaces_for_all_terminations_by_strain_and_size h).terminations =
      h.terminations := by
  rw [sort_all_eq_updateFold]
  exact terminations_updateFold (fun l => (l.insertionSort strainLe).insertionSort sizeLe)
    h.terminations h

end InterfaceDataHolder

namespace InterfaceDataHolder

/-! ### The entry-partitioning loop of `add_data_entries` -/

theorem grouping_foldl_spec (entries : List Iface) :
    ∀ (us : List TerminationType) (h : InterfaceDataHolder),
      us.Nodup → (∀ u ∈ us, u ∉ h.terminations) →
      ((us.foldl (fun acc u =>
          add_interfaces_for_termination acc u
            (entries.filter (fun e => e.termination == u))) h)).terminations =
        h.terminations ++ us ∧
      ∀ t, interfacesOf
          ((us.foldl (fun acc u =>
            add_interfaces_for_termination acc u
              (entries.filter (fun e => e.termination == u))) h)) t =
        if t ∈ us then entries.filter (fun e => e.termination == t)
        else interfacesOf h t
  | [], h, _, _ => by simp
  | u :: us, h, hnd, hdisj => by
    have hu_not : u ∉ h.terminations := hdisj u (List.mem_cons_self u us)
    have hnd2 := (List.nodup_cons.mp hnd).2
    have hu_us : u ∉ us := (List.nodup_cons.mp hnd).1
    rw [List.foldl_cons]
    have hdisj2 : ∀ v ∈ us,
        v ∉ (add_interfaces_for_termination h u
          (entries.filter (fun e => e.termination == u))).terminations := by
      intro v hv
      rw [terminations_add_interfaces_of_not_mem h _ hu_not, List.mem_append]
      rintro (hvh | hvu)
      · exact hdisj v (List.mem_cons_of_mem u hv) hvh
      · simp only [List.mem_singleton] at hvu
        exact hu_us (hvu ▸ hv)
    obtain ⟨ihterm, ihdata⟩ := grouping_foldl_spec entries us _ hnd2 hdisj2
    constructor
    · rw [ihterm, terminations_add_interfaces_of_not_mem h _ hu_not, List.append_assoc]
      rfl
    · intro t
      rw [ihdata t]
      by_cases hts : t ∈ us
      · rw [if_pos hts, if_pos (List.mem_cons_of_mem u hts)]
      · by_cases htu : t = u
        · subst htu
          rw [if_neg hts, if_pos (List.mem_cons_self t us),
            interfacesOf_add_interfaces_self_of_not_mem h _ hu_not]
        · rw [if_neg hts, if_neg (by simp [htu, hts]),
            interfacesOf_add_interfaces_other h _ htu]

/-! ### Key-soundness invariant -/

theorem keysSub_empty : KeysSub ⟨[], []⟩ := by
  intro t ht
  simp at ht

theorem mem_keys_dictSet {d : InterfacesDataType} {t u : TerminationType} {v : List Iface}
    (hu : u ∈ (dictSet d t v).map Prod.fst) : u ∈ d.map Prod.fst ∨ u = t := by
  unfold dictSet at hu
  by_cases hd : d.any (fun p => p.1 == t) = true
  · rw [if_pos hd] at hu
    rcases List.mem_map.mp hu with ⟨p, hp, hfst⟩
    rcases List.mem_map.mp hp with ⟨q, hq, hmap⟩
    by_cases hqt : (q.1 == t) = true
    · right
      rw [← hfst, ← hmap]
      simp [hqt]
    · left
      have hq2 : (q.1 == t) = false := by
        cases hb : (q.1 == t) with
        | true => exact absurd hb hqt
        | false => rfl
      rw [← hfst, ← hmap]
      simp only [hq2, Bool.false_eq_true, if_false]
      exact List.mem_map.mpr ⟨q, hq, rfl⟩
  · rw [if_neg hd, List.map_append, List.mem_append] at hu
    rcases hu with hu | hu
    · exact Or.inl hu
    · right
      simpa using hu

theorem keysSub_set {h : InterfaceDataHolder} {t : TerminationType} (v : List Iface)
    (hK : KeysSub h) (ht : t ∈ h.terminations) :
    KeysSub (set_interfaces_for_termination h t v) := by
  intro u hu
  rw [terminations_set]
  rcases mem_keys_dictSet hu with hu | hu
  · exact hK u hu
  · exact hu ▸ ht

theorem keysSub_add_termination {h : InterfaceDataHolder} (t : TerminationType)
    (hK : KeysSub h) : KeysSub (add_termination h t) := by
  unfold add_termination
  by_cases ht : t ∈ h.terminations
  · rw [if_pos ht]
    exact hK
  · rw [if_neg ht]
    intro u hu
    rw [terminations_set]
    rcases mem_keys_dictSet hu with hu | hu
    · exact List.mem_append_left _ (hK u hu)
    · exact List.mem_append_right _ (by simp [hu])

theorem keysSub_add_interfaces {h : InterfaceDataHolder} (t : TerminationType)
    (v : List Iface) (hK : KeysSub h) :
    KeysSub (add_interfaces_for_termination h t v) := by
  unfold add_interfaces_for_termination
  exact keysSub_set _ (keysSub_add_termination t hK) (mem_terminations_add_termination h t)

theorem keysSub_grouping_foldl (entries : List Iface) :
    ∀ (us : List TerminationType) (h : InterfaceDataHolder), KeysSub h →
      KeysSub (us.foldl (fun acc u =>
        add_interfaces_for_termination acc u
          (entries.filter (fun e => e.termination == u))) h)
  | [], _, hK => hK
  | u :: us, h, hK => by
    rw [List.foldl_cons]
    exact keysSub_grouping_foldl entries us _ (keysSub_add_interfaces u _ hK)

theorem keysSub_updateFold (F : List Iface → List Iface) :
    ∀ (ts : List TerminationType) (h : InterfaceDataHolder),
      (∀ u ∈ ts, u ∈ h.terminations) → KeysSub h →
      KeysSub (ts.foldl (fun acc u =>
        set_interfaces_for_termination acc u (F (interfacesOf acc u))) h)
  | [], _, _, hK => hK
  | u :: ts, h, hts, hK => by
    rw [List.foldl_cons]
    refine keysSub_updateFold F ts _ ?_ ?_
    · intro v hv
      rw [terminations_set]
      exact hts v (List.mem_cons_of_mem u hv)
    · exact keysSub_set _ hK (hts u (List.mem_cons_self u ts))

theorem keysSub_remove_duplicate_interfaces {h : InterfaceDataHolder} (hK : KeysSub h) :
    KeysSub (remove_duplicate_interfaces h) := by
  rw [remove_duplicate_interfaces_eq_updateFold]
  exact keysSub_updateFold (fun l => dedupeGreedy (l.insertionSort sizeLe))
    h.terminations h (fun u hu => hu) hK

theorem keysSub_sort_all {h : InterfaceDataHolder} (hK : KeysSub h) :
    KeysSub (sort_interfaces_for_all_terminations_by_strain_and_size h) := by
  rw [sort_all_eq_updateFold]
  exact keysSub_updateFold (fun l => (l.insertionSort strainLe).insertionSort sizeLe)
    h.terminations h (fun u hu => hu) hK

end InterfaceDataHolder

/-! ### Properties of the greedy duplicate filter -/

theorem dedupeStep_pos {kept : List Iface} {i : Iface}
    (hdup : kept.any
      (fun unique_interface => are_interfaces_duplicate i unique_interface) = true) :
    InterfaceDataHolder.dedupeStep kept i = kept := by
  unfold InterfaceDataHolder.dedupeStep
  rw [if_pos hdup]

theorem dedupeStep_neg {kept : List Iface} {i : Iface}
    (hdup : ¬ kept.any
      (fun unique_interface => are_interfaces_duplicate i unique_interface) = true) :
    InterfaceDataHolder.dedupeStep kept i = kept ++ [i] := by
  unfold InterfaceDataHolder.dedupeStep
  rw [if_neg hdup]

theorem dedupeGreedy_cons (x : Iface) (rest : List Iface) :
    InterfaceDataHolder.dedupeGreedy (x :: rest) =
      rest.foldl InterfaceDataHolder.dedupeStep [x] := rfl

theorem foldl_dedupeStep_structure :
    ∀ (rest kept : List Iface),
      ∃ suffix, rest.foldl InterfaceDataHolder.dedupeStep kept = kept ++ suffix ∧
        suffix.Sublist rest
  | [], kept => ⟨[], by simp⟩
  | i :: rest, kept => by
    rw [List.foldl_cons]
    by_cases hdup : kept.any
        (fun unique_interface => are_interfaces_duplicate i unique_interface) = true
    · rw [dedupeStep_pos hdup]
      obtain ⟨s, hs, hsub⟩ := foldl_dedupeStep_structure rest kept
      exact ⟨s, hs, hsub.cons i⟩
    · rw [dedupeStep_neg hdup]
      obtain ⟨s, hs, hsub⟩ := foldl_dedupeStep_structure rest (kept ++ [i])
      exact ⟨i :: s, by rw [hs, List.append_assoc]; rfl, hsub.cons₂ i⟩

theorem foldl_dedupeStep_pairwise :
    ∀ (rest kept : List Iface),
      kept.Pairwise (fun a b => are_interfaces_duplicate b a = false) →
      (rest.foldl InterfaceDataHolder.dedupeStep kept).Pairwise
        (fun a b => are_interfaces_duplicate b a = false)
  | [], _, hk => hk
  | i :: rest, kept, hk => by
    rw [List.foldl_cons]
    by_cases hdup : kept.any
        (fun unique_interface => are_interfaces_duplicate i unique_interface) = true
    · rw [dedupeStep_pos hdup]
      exact foldl_dedupeStep_pairwise rest kept hk
    · rw [dedupeStep_neg hdup]
      refine foldl_dedupeStep_pairwise rest (kept ++ [i]) ?_
      rw [List.pairwise_append]
      refine ⟨hk, List.pairwise_singleton _ _, ?_⟩
      intro a ha b hb
      simp only [List.mem_singleton] at hb
      subst hb
      cases hb2 : are_interfaces_duplicate b a with
      | false => rfl
      | true =>
        exact absurd (List.any_eq_true.mpr ⟨a, ha, hb2⟩) hdup

theorem dedupeGreedy_sublist (l : List Iface) :
    (InterfaceDataHolder.dedupeGreedy l).Sublist l := by
  cases l with
  | nil => exact List.Sublist.refl _
  | cons x rest =>
    rw [dedupeGreedy_cons]
    obtain ⟨s, hs, hsub⟩ := foldl_dedupeStep_structure rest [x]
    rw [hs]
    exact hsub.cons₂ x

theorem dedupeGreedy_pairwise (l : List Iface) :
    (InterfaceDataHolder.dedupeGreedy l).Pairwise
      (fun a b => are_interfaces_duplicate b a = false) := by
  cases l with
  | nil => exact List.Pairwise.nil
  | cons x rest =>
    rw [dedupeGreedy_cons]
    exact foldl_dedupeStep_pairwise rest [x] (List.pairwise_singleton _ _)

theorem dedupeGreedy_head :
    ∀ (l : List Iface), (InterfaceDataHolder.dedupeGreedy l).head? = l.head?
  | [] => rfl
  | x :: rest => by
    rw [dedupeGreedy_cons]
    obtain ⟨s, hs, _⟩ := foldl_dedupeStep_structure rest [x]
    rw [hs]
    rfl

/-! ### Stability of the two-pass sort -/

theorem sizeLe_of_sizeStrainLex {a b : Iface} (hab : sizeStrainLex a b) : sizeLe a b := by
  rcases hab with hab | ⟨hab, _⟩
  · exact Nat.le_of_lt hab
  · exact Nat.le_of_eq hab

theorem sorted_lex_orderedInsert (x : Iface) :
    ∀ (l : List Iface), l.Sorted sizeStrainLex →
      (∀ y ∈ l, y.num_sites = x.num_sites → strainKey x ≤ strainKey y) →
      (l.orderedInsert sizeLe x).Sorted sizeStrainLex
  | [], _, _ => List.sorted_singleton x
  | y :: ys, hsorted, hstrain => by
    rw [List.orderedInsert]
    have hys : ys.Sorted sizeStrainLex := (List.sorted_cons.mp hsorted).2
    have hy_all : ∀ z ∈ ys, sizeStrainLex y z := (List.sorted_cons.mp hsorted).1
    by_cases hxy : sizeLe x y
    · rw [if_pos hxy]
      rw [List.sorted_cons]
      constructor
      · intro z hz
        rcases List.mem_cons.mp hz with hz | hz
        · subst hz
          rcases Nat.lt_or_ge x.num_sites z.num_sites with hlt | hge
          · exact Or.inl hlt
          · have heq : x.num_sites = z.num_sites := Nat.le_antisymm hxy hge
            exact Or.inr ⟨heq, hstrain z (List.mem_cons_self _ _) heq.symm⟩
        · have hyz : y.num_sites ≤ z.num_sites := sizeLe_of_sizeStrainLex (hy_all z hz)
          rcases Nat.lt_or_ge x.num_sites z.num_sites with hlt | hge
          · exact Or.inl hlt
          · have heq : x.num_sites = z.num_sites :=
              Nat.le_antisymm (Nat.le_trans hxy hyz) hge
            exact Or.inr ⟨heq, hstrain z (List.mem_cons_of_mem y hz) heq.symm⟩
      · exact hsorted
    · rw [if_neg hxy]
      have hyx : y.num_sites < x.num_sites := Nat.lt_of_not_le hxy
      rw [List.sorted_cons]
      constructor
      · intro z hz
        rcases (List.mem_orderedInsert sizeLe).mp hz with hz | hz
        · subst hz
          exact Or.inl hyx
        · exact hy_all z hz
      · exact sorted_lex_orderedInsert x ys hys
          (fun z hz hsz => hstrain z (List.mem_cons_of_mem y hz) hsz)

theorem sorted_lex_insertionSort :
    ∀ (l : List Iface), l.Sorted strainLe →
      (l.insertionSort sizeLe).Sorted sizeStrainLex
  | [], _ => List.sorted_nil
  | x :: l, hsorted => by
    rw [List.insertionSort]
    have hl : l.Sorted strainLe := (List.sorted_cons.mp hsorted).2
    have hx_all : ∀ y ∈ l, strainLe x y := (List.sorted_cons.mp hsorted).1
    refine sorted_lex_orderedInsert x _ (sorted_lex_insertionSort l hl) ?_
    intro y hy _
    exact hx_all y ((List.mem_insertionSort sizeLe).mp hy)

theorem strainSize_sorted_composite (l : List Iface) :
    ((l.insertionSort strainLe).insertionSort sizeLe).Sorted sizeStrainLex :=
  sorted_lex_insertionSort _ (List.sorted_insertionSort strainLe l)

theorem insertionSort_sizeLe_of_sorted_lex {l : List Iface} (hl : l.Sorted sizeStrainLex) :
    l.insertionSort sizeLe = l :=
  List.Sorted.insertionSort_eq (hl.imp sizeLe_of_sizeStrainLex)

namespace InterfaceDataHolder

theorem init_eq_pipeline (entries : List Iface) :
    init entries =
      remove_duplicate_interfaces
        (sort_interfaces_for_all_terminations_by_strain_and_size
          (((entries.map (fun e => e.termination)).dedup).foldl
            (fun acc u =>
              add_interfaces_for_termination acc u
                (entries.filter (fun e => e.termination == u))) ⟨[], []⟩)) := rfl

theorem init_spec (entries : List Iface) :
    (init entries).terminations = (entries.map (fun e => e.termination)).dedup ∧
    KeysSub (init entries) ∧
    ∀ t ∈ (entries.map (fun e => e.termination)).dedup,
      interfacesOf (init entries) t =
        dedupeGreedy
          ((((entries.filter (fun e => e.termination == t)).insertionSort
            strainLe).insertionSort sizeLe).insertionSort sizeLe) := by
  have hnd : ((entries.map (fun e => e.termination)).dedup).Nodup := List.nodup_dedup _
  have hdisj : ∀ u ∈ (entries.map (fun e => e.termination)).dedup,
      u ∉ (InterfaceDataHolder.mk [] []).terminations := by
    intro u _
    simp
  obtain ⟨hterm1, hdata1⟩ :=
    grouping_foldl_spec entries ((entries.map (fun e => e.termination)).dedup) ⟨[], []⟩
      hnd hdisj
  rw [List.nil_append] at hterm1
  have hnd1 : (((entries.map (fun e => e.termination)).dedup).foldl
      (fun acc u =>
        add_interfaces_for_termination acc u
          (entries.filter (fun e => e.termination == u))) ⟨[], []⟩).terminations.Nodup := by
    rw [hterm1]
    exact hnd
  have hK : KeysSub (init entries) := by
    rw [init_eq_pipeline]
    exact keysSub_remove_duplicate_interfaces
      (keysSub_sort_all (keysSub_grouping_foldl entries _ _ keysSub_empty))
  refine ⟨?_, hK, ?_⟩
  · rw [init_eq_pipeline, terminations_remove_duplicate_interfaces, terminations_sort_all,
      hterm1]
  · intro t ht
    rw [init_eq_pipeline, interfacesOf_remove_duplicate_interfaces _ _ ?hnd3,
      terminations_sort_all, hterm1, if_pos ht, interfacesOf_sort_all _ _ hnd1,
      hterm1, if_pos ht, hdata1 t, if_pos ht]
    case hnd3 =>
      rw [terminations_sort_all, hterm1]
      exact hnd

end InterfaceDataHolder

/-! ### Claim theorems -/

theorem remove_duplicates_for_termination_eq (h : InterfaceDataHolder)
    (t : TerminationType) :
    InterfaceDataHolder.remove_duplicate_interfaces_for_termination h t =
      InterfaceDataHolder.set_interfaces_for_termination h t
        (InterfaceDataHolder.dedupeGreedy
          (InterfaceDataHolder.get_interfaces_for_termination_sorted_by_size h t)) := rfl

/-- Claim C1, counterexample.  The claim asserts that among any two
candidates of equal site count and strain within tolerance, only the first
in size order is retained.  In the duplicate chain `dup1, dup2, dup3`
(equal sizes, strains 0, 1e-8, 2e-8), `dup2` and `dup3` are near-duplicates
of each other, yet the greedy filter drops `dup2` (a duplicate of the kept
`dup1`) and keeps `dup3` (not a duplicate of `dup1`): the second of the
pair is retained and the first is not. -/
theorem C1_counterexample :
    InterfaceDataHolder.get_interfaces_for_termination_sorted_by_size holderDup tCex =
      [dup1, dup2, dup3] ∧
    dup2.num_sites = dup3.num_sites ∧
    are_interfaces_duplicate dup3 dup2 = true ∧
    are_interfaces_duplicate dup2 dup3 = true ∧
    InterfaceDataHolder.interfacesOf
      (InterfaceDataHolder.remove_duplicate_interfaces holderDup) tCex = [dup1, dup3] ∧
    dup2 ∉ InterfaceDataHolder.interfacesOf
      (InterfaceDataHolder.remove_duplicate_interfaces holderDup) tCex := by decide

/-- Claim C1, amended: after `remove_duplicate_interfaces_for_termination`,
the stored group is a subsequence of the size-sorted group, its first
element is the first element of the size-sorted group, and no retained
candidate is a near-duplicate (equal site count and strain within
tolerance) of an earlier retained one — hence among any two near-duplicate
candidates at most one is retained, and if the earlier (in size order) is
retained the later is not. -/
theorem C1_remove_duplicates_amended (h : InterfaceDataHolder) (t : TerminationType) :
    (InterfaceDataHolder.interfacesOf
        (InterfaceDataHolder.remove_duplicate_interfaces_for_termination h t) t).Sublist
      (InterfaceDataHolder.get_interfaces_for_termination_sorted_by_size h t) ∧
    (InterfaceDataHolder.interfacesOf
        (InterfaceDataHolder.remove_duplicate_interfaces_for_termination h t) t).head? =
      (InterfaceDataHolder.get_interfaces_for_termination_sorted_by_size h t).head? ∧
    (InterfaceDataHolder.interfacesOf
        (InterfaceDataHolder.remove_duplicate_interfaces_for_termination h t) t).Pairwise
      (fun a b => are_interfaces_duplicate b a = false) := by
  rw [remove_duplicates_for_termination_eq, InterfaceDataHolder.interfacesOf_set_self]
  exact ⟨dedupeGreedy_sublist _, dedupeGreedy_head _, dedupeGreedy_pairwise _⟩

/-- Claim C2, counterexample.  The two-pass sort (strain first, then a
stable re-sort by size) makes the site count the primary key, so the result
is not non-decreasing in mean absolute strain: with `ifaceA` (5 sites,
strain 2/10) and `ifaceB` (10 sites, strain 1/10), the returned list is
`[ifaceA, ifaceB]`, whose strain sequence decreases. -/
theorem C2_counterexample :
    InterfaceDataHolder.get_interfaces_for_termination_sorted_by_strain_and_size holderAB
        tCex = [ifaceA, ifaceB] ∧
    strainKey ifaceB < strainKey ifaceA ∧
    ¬ (InterfaceDataHolder.get_interfaces_for_termination_sorted_by_strain_and_size holderAB
        tCex).Sorted strainLe := by decide

/-- Claim C2, amended: the list returned by
`get_interfaces_for_termination_sorted_by_strain_and_size` is non-decreasing
in site count, and among candidates with equal site count it is
non-decreasing in mean absolute strain. -/
theorem C2_sorted_amended (h : InterfaceDataHolder) (t : TerminationType) :
    (InterfaceDataHolder.get_interfaces_for_termination_sorted_by_strain_and_size h
      t).Sorted sizeStrainLex :=
  sorted_lex_insertionSort _ (List.sorted_insertionSort strainLe _)

/-- Claim C3, counterexample.  After construction the stored list is the
output of the deduplication pass, which re-sorts by size: with entries
`ifaceA` (5 sites, strain 2/10) and `ifaceB` (10 sites, strain 1/10) the
stored list is `[ifaceA, ifaceB]`, which is not sorted by the
(strain, size) key order. -/
theorem C3_counterexample :
    dictGet (InterfaceDataHolder.init [ifaceA, ifaceB]).data tCex =
      some [ifaceA, ifaceB] ∧
    strainKey ifaceB < strainKey ifaceA ∧
    ¬ (InterfaceDataHolder.interfacesOf (InterfaceDataHolder.init [ifaceA, ifaceB])
        tCex).Sorted strainSizeLex := by decide

/-- Claim C3, amended: after constructing an `InterfaceDataHolder` from any
entry list (default flags), every termination key's stored list is
deduplicated — no retained candidate has equal site count and strain within
tolerance of an earlier retained one — and is sorted by site count
ascending, with mean absolute strain ascending among equal site counts. -/
theorem C3_init_invariant (entries : List Iface) (t : TerminationType) (l : List Iface)
    (hl : dictGet (InterfaceDataHolder.init entries).data t = some l) :
    l.Pairwise (fun a b => are_interfaces_duplicate b a = false) ∧
    l.Sorted sizeStrainLex := by
  obtain ⟨hterm, hK, hdata⟩ := InterfaceDataHolder.init_spec entries
  have htmem : t ∈ (InterfaceDataHolder.init entries).terminations :=
    hK t (mem_keys_of_dictGet_eq_some hl)
  rw [hterm] at htmem
  have hl2 : InterfaceDataHolder.interfacesOf (InterfaceDataHolder.init entries) t = l := by
    unfold InterfaceDataHolder.interfacesOf
    rw [hl]
    rfl
  rw [hdata t htmem] at hl2
  have hy : (((entries.filter (fun e => e.termination == t)).insertionSort
      strainLe).insertionSort sizeLe).Sorted sizeStrainLex :=
    strainSize_sorted_composite _
  rw [insertionSort_sizeLe_of_sorted_lex hy] at hl2
  subst hl2
  exact ⟨dedupeGreedy_pairwise _,
    List.Pairwise.sublist (dedupeGreedy_sublist _) hy⟩

/-- Witness for the amended claim C3 at a concrete holder. -/
theorem C3_init_invariant_witness :
    dictGet (InterfaceDataHolder.init [ifaceA, ifaceB]).data tCex =
      some [ifaceA, ifaceB] ∧
    ([ifaceA, ifaceB].Pairwise (fun a b => are_interfaces_duplicate b a = false) ∧
      List.Sorted sizeStrainLex [ifaceA, ifaceB]) :=
  ⟨by decide, C3_init_invariant [ifaceA, ifaceB] tCex [ifaceA, ifaceB] (by decide)⟩

theorem pyListGet_of_lt (xs : List TerminationType) (i : ℕ) (hi : i < xs.length) :
    pyListGet xs (i : ℤ) = some (xs.get ⟨i, hi⟩) := by
  simp only [pyListGet]
  rw [if_neg (by omega : ¬ (i : ℤ) < 0)]
  rw [if_pos (by omega : (0 : ℤ) ≤ (i : ℤ))]
  rw [Int.toNat_natCast]
  exact List.get?_eq_get hi

/-- Claim C4: retrieving the interfaces of an `InterfaceDataHolder` by a
valid integer position equals retrieving them by the termination pair
stored at that position (both resolve to the same dict read, so they agree
even on the error outcome). -/
theorem C4_index_key_retrieval (h : InterfaceDataHolder) (i : ℕ)
    (hi : i < h.terminations.length) :
    InterfaceDataHolder.get_interfaces_for_termination_api h (Sum.inl (i : ℤ)) =
      InterfaceDataHolder.get_interfaces_for_termination_api h
        (Sum.inr (h.terminations.get ⟨i, hi⟩)) := by
  unfold InterfaceDataHolder.get_interfaces_for_termination_api
    InterfaceDataHolder.get_interfaces_for_termination_or_its_index
    InterfaceDataHolder.get_termination
  dsimp only
  rw [pyListGet_of_lt h.terminations i hi]

/-- Witness for claim C4 at a concrete holder and index 0. -/
theorem C4_index_key_retrieval_witness :
    InterfaceDataHolder.get_interfaces_for_termination_api holderAB (Sum.inl (0 : ℤ)) =
      InterfaceDataHolder.get_interfaces_for_termination_api holderAB
        (Sum.inr (holderAB.terminations.get ⟨0, by decide⟩)) :=
  C4_index_key_retrieval holderAB 0 (by decide)

/-- Claim C5: retrieval with a termination index outside the range of the
terminations list fails with an `IndexError`, and retrieval with a
termination pair that is not a key of the holder fails with a `KeyError`.
The getter methods perform no assignment, which the embedding reflects by
typing them as pure functions of the holder: the holder state is unchanged
by a failed (or successful) retrieval. -/
theorem C5_lookup_errors (h : InterfaceDataHolder) :
    (∀ i : ℤ, i < -(h.terminations.length : ℤ) ∨ (h.terminations.length : ℤ) ≤ i →
      InterfaceDataHolder.get_interfaces_for_termination_api h (Sum.inl i) =
        Except.error PyErr.indexError) ∧
    (∀ t : TerminationType, t ∉ h.data.map Prod.fst →
      InterfaceDataHolder.get_interfaces_for_termination_api h (Sum.inr t) =
        Except.error PyErr.keyError) := by
  constructor
  · intro i hrange
    have hnone : pyListGet h.terminations i = none := by
      simp only [pyListGet]
      rcases hrange with hlo | hhi
      · rw [if_pos (by omega : i < 0)]
        rw [if_neg (by omega : ¬ (0 : ℤ) ≤ i + (h.terminations.length : ℤ))]
      · rw [if_neg (by omega : ¬ i < 0)]
        rw [if_pos (by omega : (0 : ℤ) ≤ i)]
        rw [List.get?_eq_none.mpr (by omega : h.terminations.length ≤ i.toNat)]
    unfold InterfaceDataHolder.get_interfaces_for_termination_api
      InterfaceDataHolder.get_interfaces_for_termination_or_its_index
      InterfaceDataHolder.get_termination
    dsimp only
    rw [hnone]
    rfl
  · intro t ht
    have hnone : dictGet h.data t = none := by
      unfold dictGet
      rw [List.find?_eq_none.mpr]
      · rfl
      · intro p hp hpt
        exact ht (List.mem_map.mpr ⟨p, hp, beq_iff_eq.mp hpt⟩)
    show (match dictGet h.data t with
      | some interfaces => Except.ok interfaces
      | none => Except.error PyErr.keyError) = Except.error PyErr.keyError
    rw [hnone]

/-- Witness for claim C5 at a concrete holder: index 5 is out of range and
the pair `("x", "y")` is not a key. -/
theorem C5_lookup_errors_witness :
    InterfaceDataHolder.get_interfaces_for_termination_api holderAB (Sum.inl 5) =
      Except.error PyErr.indexError ∧
    InterfaceDataHolder.get_interfaces_for_termination_api holderAB
        (Sum.inr ("x", "y")) = Except.error PyErr.keyError :=
  ⟨(C5_lookup_errors holderAB).1 5 (by decide),
    (C5_lookup_errors holderAB).2 ("x", "y") (by decide)⟩

/-- Claim C6: the claim asserts a passthrough fallback for an unmatched
defect type, but `create_defect` subscripts the factory dict directly, so an
unmatched defect type raises `KeyError` before the
`if builder else configuration.crystal` fallback can apply (that branch is
unreachable: a successful lookup always yields a truthy builder object).
For a matching defect type the builder's `get_material(configuration)` is
returned, as claimed. -/
theorem C6_create_defect_dispatch (M P : Type)
    (vac sub inter : Option P → PointDefectBuilder M (PointDefectConfiguration M))
    (m : M) (builder_parameters : Option P) :
    create_defect vac sub inter ⟨PointDefectTypeEnum.OTHER, m⟩ builder_parameters =
      Except.error PyErr.keyError ∧
    create_defect vac sub inter ⟨PointDefectTypeEnum.OTHER, m⟩ builder_parameters ≠
      Except.ok m ∧
    create_defect vac sub inter ⟨PointDefectTypeEnum.VACANCY, m⟩ builder_parameters =
      Except.ok ((vac builder_parameters).get_material
        ⟨PointDefectTypeEnum.VACANCY, m⟩) :=
  ⟨rfl, fun hcontr => Except.noConfusion hcontr, rfl⟩

/-- Claim C8: `get_slab_with_termination` returns the supercell-expanded
material built from the first generated slab structure whose termination
label equals the argument, and `None` when no structure matches; being a
total function into `Option`, it never raises for an unknown termination. -/
theorem C8_get_slab_with_termination (S Cfg M : Type) (label_termination : S → String)
    (from_pymatgen : S → Cfg) (material_of : Cfg → M)
    (create_supercell : M → List (List ℤ) → M)
    (g : SlabGenerator S) (termination : String) :
    (∀ pre s post, g.slab_structures = pre ++ s :: post →
      (∀ x ∈ pre, label_termination x ≠ termination) →
      label_termination s = termination →
      get_slab_with_termination label_termination from_pymatgen material_of
          create_supercell g termination =
        some (create_supercell (material_of (from_pymatgen s))
          g.xy_supercell_matrix)) ∧
    ((∀ x ∈ g.slab_structures, label_termination x ≠ termination) →
      get_slab_with_termination label_termination from_pymatgen material_of
        create_supercell g termination = none) := by
  constructor
  · intro pre s post hsplit hpre hs
    unfold get_slab_with_termination
    rw [hsplit, List.find?_append]
    have h1 : pre.find? (fun x => label_termination x == termination) = none := by
      rw [List.find?_eq_none]
      intro x hx hbeq
      exact hpre x hx (beq_iff_eq.mp hbeq)
    have h2 : ((s :: post).find? (fun x => label_termination x == termination)) = some s :=
      List.find?_cons_of_pos _ (beq_iff_eq.mpr hs)
    rw [h1, h2]
    rfl
  · intro hall
    unfold get_slab_with_termination
    rw [List.find?_eq_none.mpr]
    · rfl
    · intro x hx hbeq
      exact hall x hx (beq_iff_eq.mp hbeq)

/-- Witness for claim C8 at a concrete generator over `String` structures:
the label `"termY"` matches the second structure, the label `"nope"`
matches none. -/
theorem C8_get_slab_with_termination_witness :
    get_slab_with_termination (fun s => s) (fun s => s) (fun c => c) (fun m _ => m)
      slabGenCex "termY" = some "termY" ∧
    get_slab_with_termination (fun s => s) (fun s => s) (fun c => c) (fun m _ => m)
      slabGenCex "nope" = none :=
  ⟨(C8_get_slab_with_termination String String String (fun s => s) (fun s => s)
      (fun c => c) (fun m _ => m) slabGenCex "termY").1 ["termX"] "termY" []
      (by decide) (by decide) (by decide),
    (C8_get_slab_with_termination String String String (fun s => s) (fun s => s)
      (fun c => c) (fun m _ => m) slabGenCex "nope").2 (by decide)⟩

theorem foldl_append_eq_flatten :
    ∀ (vs : List (List Iface)) (acc : List Iface),
      vs.foldl (fun a b => a ++ b) acc = acc ++ vs.flatten
  | [], acc => by simp
  | w :: vs, acc => by
    rw [List.foldl_cons, foldl_append_eq_flatten vs (acc ++ w), List.flatten_cons,
      List.append_assoc]

/-- Claim C9: `get_all_interfaces` returns the concatenation of all
termination groups (in dict insertion order) when the holder has at least
one group, and raises a `TypeError` (reduce of an empty sequence with no
initial value) when it has none, e.g. when constructed from an empty entry
list. -/
theorem C9_get_all_interfaces (h : InterfaceDataHolder) :
    (h.data ≠ [] →
      InterfaceDataHolder.get_all_interfaces h =
        Except.ok (h.data.map Prod.snd).flatten) ∧
    (h.data = [] →
      InterfaceDataHolder.get_all_interfaces h = Except.error PyErr.typeError) ∧
    (InterfaceDataHolder.init []).data = [] := by
  refine ⟨?_, ?_, rfl⟩
  · intro hne
    unfold InterfaceDataHolder.get_all_interfaces
    cases hdata : h.data with
    | nil => exact absurd hdata hne
    | cons p ds =>
      rw [List.map_cons]
      dsimp only
      rw [foldl_append_eq_flatten, List.flatten_cons]
  · intro hempty
    unfold InterfaceDataHolder.get_all_interfaces
    rw [hempty]
    rfl

/-- Witness for claim C9 at concrete holders: the one-termination holder
and the holder constructed from the empty entry list. -/
theorem C9_get_all_interfaces_witness :
    InterfaceDataHolder.get_all_interfaces holderAB =
      Except.ok (holderAB.data.map Prod.snd).flatten ∧
    InterfaceDataHolder.get_all_interfaces (InterfaceDataHolder.init []) =
      Except.error PyErr.typeError :=
  ⟨(C9_get_all_interfaces holderAB).1 (by decide),
    (C9_get_all_interfaces (InterfaceDataHolder.init [])).2.1 rfl⟩

/-! ### Merge lemmas -/

theorem merge_override_id {α : Type} (b : List (BasisEntry α)) (e : BasisEntry α) :
    (match b.find? (fun e2 : BasisEntry α => e2.id == e.id) with
     | some e2 => e2
     | none => e).id = e.id := by
  cases hfind : b.find? (fun e2 : BasisEntry α => e2.id == e.id) with
  | none => rfl
  | some e2 =>
    have h2 := List.find?_some hfind
    exact beq_iff_eq.mp h2

theorem find?_filter_superset {α : Type} {p q : α → Bool} :
    ∀ (l : List α), (∀ x, p x = true → q x = true) →
      (l.filter q).find? p = l.find? p
  | [], _ => rfl
  | x :: l, hpq => by
    by_cases hq : q x = true
    · rw [List.filter_cons_of_pos hq]
      cases hp : p x with
      | true =>
        rw [List.find?_cons_of_pos _ hp, List.find?_cons_of_pos _ hp]
      | false =>
        have hp2 : ¬ p x = true := by rw [hp]; exact Bool.false_ne_true
        rw [List.find?_cons_of_neg _ hp2, List.find?_cons_of_neg _ hp2]
        exact find?_filter_superset l hpq
    · rw [List.filter_cons_of_neg hq]
      have hp : ¬ p x = true := fun hp2 => hq (hpq x hp2)
      rw [List.find?_cons_of_neg _ hp]
      exact find?_filter_superset l hpq

theorem findById_mergeEntries {α : Type} (a b : List (BasisEntry α)) (i : ℤ) :
    findById (mergeEntries a b) i =
      match findById a i with
      | some ea => some ((findById b i).getD ea)
      | none => findById b i := by
  unfold findById mergeEntries
  rw [List.find?_append]
  rw [List.find?_map]
  have hcomp : ((fun e : BasisEntry α => e.id == i) ∘ fun e =>
      match b.find? (fun e2 => e2.id == e.id) with
      | some e2 => e2
      | none => e) = (fun e : BasisEntry α => e.id == i) := by
    funext e
    simp only [Function.comp]
    rw [merge_override_id]
  rw [hcomp]
  cases ha : a.find? (fun e => e.id == i) with
  | some ea =>
    have ha2 := List.find?_some ha
    have hid : ea.id = i := beq_iff_eq.mp ha2
    rw [Option.map_some', Option.or_some]
    have : (match b.find? (fun e2 => e2.id == ea.id) with
        | some e2 => e2
        | none => ea) = (b.find? (fun e2 => e2.id == i)).getD ea := by
      rw [hid]
      cases b.find? (fun e2 => e2.id == i) with
      | none => rfl
      | some e2 => rfl
    rw [this]
  | none =>
    rw [Option.map_none', Option.none_or]
    refine find?_filter_superset b ?_
    intro x hx
    rw [List.all_eq_true]
    intro e he
    have hne : e.id ≠ i := by
      intro heq
      exact absurd (beq_iff_eq.mpr heq) (by
        have := List.find?_eq_none.mp ha e he
        exact this)
    have hxi : x.id = i := beq_iff_eq.mp hx
    rw [Bool.not_eq_true', beq_eq_false_iff_ne]
    rw [hxi]
    exact hne

theorem mergeEntries_nil_left {α : Type} (b : List (BasisEntry α)) :
    mergeEntries [] b = b := by
  unfold mergeEntries
  rw [List.map_nil, List.nil_append]
  rw [List.filter_eq_self.mpr]
  intro x _
  rw [List.all_nil]

theorem merge_two_materials_empty (m : Material) :
    merge_two_materials ⟨⟨[], [], []⟩⟩ m = m := by
  unfold merge_two_materials
  rw [mergeEntries_nil_left, mergeEntries_nil_left, mergeEntries_nil_left]

theorem merge_materials_pair (A B : Material) :
    merge_materials [A, B] = merge_two_materials A B := by
  unfold merge_materials
  rw [List.foldl_cons, List.foldl_cons, List.foldl_nil, merge_two_materials_empty]

theorem findById_merge_collision {α : Type} {a b : List (BasisEntry α)} {i : ℤ}
    {ea eb : BasisEntry α} (ha : findById a i = some ea) (hb : findById b i = some eb) :
    findById (mergeEntries a b) i = some eb := by
  rw [findById_mergeEntries, ha, hb]
  rfl

theorem findById_merge_right_none {α : Type} {a b : List (BasisEntry α)} {i : ℤ}
    (hb : findById b i = none) :
    findById (mergeEntries a b) i = findById a i := by
  rw [findById_mergeEntries, hb]
  cases ha : findById a i with
  | none => rfl
  | some ea => rfl

theorem findById_merge_left_none {α : Type} {a b : List (BasisEntry α)} {i : ℤ}
    (ha : findById a i = none) :
    findById (mergeEntries a b) i = findById b i := by
  rw [findById_mergeEntries, ha]

/-- Claim C7, counterexample.  The claim says `merge_materials([A, B])`
keeps A's atoms on id collisions, but the unit-test fixtures
(`expected_merged_material_basis`) fix the opposite: merging `matA` (id 0
is Ni) with `matB` (id 0 is S) keeps B's atom S at id 0 and drops A's
Ni. -/
theorem C7_counterexample :
    findById matA.basis.elements 0 = some ⟨0, "Ni"⟩ ∧
    findById matB.basis.elements 0 = some ⟨0, "S"⟩ ∧
    (merge_materials [matA, matB]).basis.elements =
      [⟨0, "S"⟩, ⟨1, "O"⟩, ⟨2, "H"⟩] ∧
    (⟨0, "Ni"⟩ : BasisEntry String) ∉ (merge_materials [matA, matB]).basis.elements := by
  decide

/-- Claim C7, amended: on id collisions `merge_materials([A, B])` keeps B's
atoms (elements and coordinates) and `merge_materials([B, A])` keeps A's;
atoms with non-colliding ids from either material are all present in the
merged result. -/
theorem C7_merge_amended (A B : Material) (i : ℤ) :
    (∀ ea eb, findById A.basis.elements i = some ea →
      findById B.basis.elements i = some eb →
      findById (merge_materials [A, B]).basis.elements i = some eb ∧
      findById (merge_materials [B, A]).basis.elements i = some ea) ∧
    (∀ ca cb, findById A.basis.coordinates i = some ca →
      findById B.basis.coordinates i = some cb →
      findById (merge_materials [A, B]).basis.coordinates i = some cb ∧
      findById (merge_materials [B, A]).basis.coordinates i = some ca) ∧
    (findById B.basis.elements i = none →
      findById (merge_materials [A, B]).basis.elements i =
        findById A.basis.elements i) ∧
    (findById A.basis.elements i = none →
      findById (merge_materials [A, B]).basis.elements i =
        findById B.basis.elements i) ∧
    (findById B.basis.coordinates i = none →
      findById (merge_materials [A, B]).basis.coordinates i =
        findById A.basis.coordinates i) ∧
    (findById A.basis.coordinates i = none →
      findById (merge_materials [A, B]).basis.coordinates i =
        findById B.basis.coordinates i) := by
  rw [merge_materials_pair, merge_materials_pair]
  unfold merge_two_materials
  refine ⟨?_, ?_, ?_, ?_, ?_, ?_⟩
  · intro ea eb ha hb
    exact ⟨findById_merge_collision ha hb, findById_merge_collision hb ha⟩
  · intro ca cb ha hb
    exact ⟨findById_merge_collision ha hb, findById_merge_collision hb ha⟩
  · intro hb
    exact findById_merge_right_none hb
  · intro ha
    exact findById_merge_left_none ha
  · intro hb
    exact findById_merge_right_none hb
  · intro ha
    exact findById_merge_left_none ha

/-- Witness for the amended claim C7 at the concrete materials: the
colliding id 0 resolves to B's atom in `[matA, matB]` order and to A's atom
in `[matB, matA]` order. -/
theorem C7_merge_amended_witness :
    findById (merge_materials [matA, matB]).basis.elements 0 =
      some ⟨0, "S"⟩ ∧
    findById (merge_materials [matB, matA]).basis.elements 0 =
      some ⟨0, "Ni"⟩ :=
  (C7_merge_amended matA matB 0).1 ⟨0, "Ni"⟩ ⟨0, "S"⟩ (by decide) (by decide)

/-! ### Label filtering lemmas -/

theorem filter_indices_spec (labels : List (BasisEntry PyScalar)) (label : PyScalar)
    (n : ℕ) :
    decide (n ∈ (labels.enum.filter (fun p => p.2.value == label)).map Prod.fst) =
      (labels.get? n).any (fun lab => lab.value == label) := by
  have hiff : (n ∈ (labels.enum.filter (fun p => p.2.value == label)).map Prod.fst) ↔
      ∃ lab, labels.get? n = some lab ∧ (lab.value == label) = true := by
    constructor
    · intro hmem
      rcases List.mem_map.mp hmem with ⟨p, hpf, hfst⟩
      rcases List.mem_filter.mp hpf with ⟨hpe, hpv⟩
      refine ⟨p.2, ?_, hpv⟩
      have hpe2 : (p.1, p.2) ∈ labels.enum := by simpa using hpe
      have h2 := List.mk_mem_enum_iff_getElem?.mp hpe2
      rw [← hfst, List.get?_eq_getElem?]
      exact h2
    · rintro ⟨lab, hget, hval⟩
      refine List.mem_map.mpr ⟨(n, lab), ?_, rfl⟩
      refine List.mem_filter.mpr ⟨?_, hval⟩
      refine List.mk_mem_enum_iff_getElem?.mpr ?_
      rw [← List.get?_eq_getElem?]
      exact hget
  cases hget : labels.get? n with
  | none =>
    rw [decide_eq_false]
    · rfl
    · intro hmem
      rcases hiff.mp hmem with ⟨lab, hget2, _⟩
      rw [hget] at hget2
      cases hget2
  | some lab =>
    cases hval : (lab.value == label) with
    | true =>
      rw [decide_eq_true (hiff.mpr ⟨lab, hget, hval⟩), Option.any_some, hval]
    | false =>
      rw [decide_eq_false]
      · rw [Option.any_some, hval]
      · intro hmem
        rcases hiff.mp hmem with ⟨lab2, hget2, hval2⟩
        rw [hget] at hget2
        cases hget2
        rw [hval] at hval2
        cases hval2

/-- Claim C10: `filter_by_label` replaces the element and coordinate arrays
by the entries at positions whose label value matches, leaves the labels
array unchanged, and therefore whenever the filter removes at least one
atom (and the basis arrays are parallel), the labels array is strictly
longer than the filtered element and coordinate arrays.  The source
function mutates the input material in place and returns the very same
object; the embedding reflects this by returning the post-mutation state,
which is both the final state of the input and the returned value. -/
theorem C10_filter_by_label (material : Material) (label : PyScalar) :
    (filter_by_label material label).basis.labels = material.basis.labels ∧
    (filter_by_label material label).basis.elements =
      (material.basis.elements.enum.filter (fun p =>
        (material.basis.labels.get? p.1).any
          (fun lab => lab.value == label))).map Prod.snd ∧
    (filter_by_label material label).basis.coordinates =
      (material.basis.coordinates.enum.filter (fun p =>
        (material.basis.labels.get? p.1).any
          (fun lab => lab.value == label))).map Prod.snd ∧
    (material.basis.labels.length = material.basis.elements.length →
      (filter_by_label material label).basis.elements.length <
        material.basis.elements.length →
      (filter_by_label material label).basis.elements.length <
        material.basis.labels.length) ∧
    (material.basis.labels.length = material.basis.coordinates.length →
      (filter_by_label material label).basis.coordinates.length <
        material.basis.coordinates.length →
      (filter_by_label material label).basis.coordinates.length <
        material.basis.labels.length) := by
  refine ⟨rfl, ?_, ?_, ?_, ?_⟩
  · rw [show (filter_by_label material label).basis.elements =
      (material.basis.elements.enum.filter (fun p =>
        decide (p.1 ∈ (material.basis.labels.enum.filter
          (fun p => p.2.value == label)).map Prod.fst))).map Prod.snd from rfl]
    congr 1
    apply List.filter_congr
    intro x _
    exact filter_indices_spec material.basis.labels label x.1
  · rw [show (filter_by_label material label).basis.coordinates =
      (material.basis.coordinates.enum.filter (fun p =>
        decide (p.1 ∈ (material.basis.labels.enum.filter
          (fun p => p.2.value == label)).map Prod.fst))).map Prod.snd from rfl]
    congr 1
    apply List.filter_congr
    intro x _
    exact filter_indices_spec material.basis.labels label x.1
  · intro hlen hrem
    rw [hlen]
    exact hrem
  · intro hlen hrem
    rw [hlen]
    exact hrem

/-- Witness for claim C10 at a concrete material: filtering by label 1
keeps one of the two atoms, so the untouched labels array is strictly
longer than the filtered arrays. -/
theorem C10_filter_by_label_witness :
    (filter_by_label matLbl (PyScalar.intV 1)).basis.labels = matLbl.basis.labels ∧
    (filter_by_label matLbl (PyScalar.intV 1)).basis.elements.length <
      matLbl.basis.labels.length :=
  ⟨(C10_filter_by_label matLbl (PyScalar.intV 1)).1,
    (C10_filter_by_label matLbl (PyScalar.intV 1)).2.2.2.1 (by decide) (by decide)⟩
